import Mathlib

/-!
Cell-array selection in matio (`src/matvar_cell.c`).

A shallow embedding of the three selection routines of `matvar_cell.c`
(`Mat_VarGetCell`, `Mat_VarGetCells`, `Mat_VarGetCellsLinear`) and theorems
about them.

Modelling conventions.

* A C `int` is a 32-bit two's-complement integer.  Values are carried as
  mathematical integers and every arithmetic result stored in an `int`
  (`nmemb`, `N`, `I`, `i`, `inc[]`, `dimp[]`, `cnt[]`) is reduced with `wrap`.
  `%` is the truncating remainder; `INT_MIN % -1` is taken as 0.
* A pointer argument that may be `NULL` is an `Option`; `none` is `NULL`.
* The descriptor type `matvar_t` is declared in `matio_private.h`, which is not
  part of the sources at hand; only the three fields the routines touch are
  modelled (`rank`, `dims`, `data`).  Handles are values of an arbitrary type.
* Reading `dims`, `start`, `stride` or `edge` past the end of the array,
  dividing by zero, and a loop that never exits are reported as a `Fault`.
* Reading the handle storage yields a value for every offset: an offset outside
  the storage yields the marker `Ptr.wild`.  Every read of the storage is also
  recorded, as `Event.read`, in the log that the `_run` form of each routine
  returns next to its result; the routine itself is the result of its `_run`
  form without the log.
* `malloc` of a non-negative count gives that many uninitialised slots
  (`Ptr.unset`); a negative count, converted to `size_t`, cannot be satisfied
  and gives `NULL`.  Exhaustion of memory is not modelled.  A write outside the
  allocated block leaves the block as it is.
* The local arrays `inc`, `cnt`, `dimp` are functions of the index; the test
  `rank > 10` keeps the indices of every completed set-up below 10.
-/

namespace Matio

/-- Abnormal ways in which an execution can end. -/
inductive Fault where
  | outOfRange
  | divByZero
  | noReturn
  deriving DecidableEq, Repr

/-- Value of a C variable of type `matvar_t *`: `NULL`, an indeterminate
(never written) value, the result of reading outside the storage, or a
handle. -/
inductive Ptr (α : Type) where
  | null : Ptr α
  | unset : Ptr α
  | wild : Ptr α
  | cell (h : α) : Ptr α
  deriving DecidableEq, Repr

/-- What a run records: a read of the storage at offset `I`, and the start of
an innermost run of `Mat_VarGetCells` with the values of `i` and `I`. -/
inductive Event where
  | read (I : Int)
  | run (i I : Int)
  deriving DecidableEq, Repr

/-- Fields `rank`, `dims` and `data` of the descriptor; `data` is the flat
array of handles. -/
structure matvar_t (α : Type) where
  rank : Int
  dims : List Int
  data : List α
  deriving Repr

/-- Decidable equality of results, for evaluation on concrete inputs. -/
instance decEqExcept {ε β : Type} [DecidableEq ε] [DecidableEq β] :
    DecidableEq (Except ε β)
  | .ok a, .ok b =>
    if h : a = b then isTrue (by rw [h]) else isFalse (fun h2 => h (Except.ok.inj h2))
  | .error a, .error b =>
    if h : a = b then isTrue (by rw [h]) else isFalse (fun h2 => h (Except.error.inj h2))
  | .ok _, .error _ => isFalse (fun h => by cases h)
  | .error _, .ok _ => isFalse (fun h => by cases h)

/-- Reduction of an integer to the range of `int`, `-2^31 .. 2^31-1`, modulo
`2^32`. -/
def wrap (x : Int) : Int := (x + 2147483648) % 4294967296 - 2147483648

/-- The integer is representable as an `int`. -/
def IsInt (x : Int) : Prop := -2147483648 ≤ x ∧ x < 2147483648

instance decIsInt (x : Int) : Decidable (IsInt x) :=
  inferInstanceAs (Decidable (-2147483648 ≤ x ∧ x < 2147483648))

/-- Array read `xs[i]` of an `int` array. -/
def rd (xs : List Int) (i : Nat) : Except Fault Int :=
  match xs[i]? with
  | some v => .ok v
  | none => .error .outOfRange

/-- Storage read `*((matvar_t **)matvar->data + I)`. -/
def deref {α : Type} (data : List α) (I : Int) : Ptr α :=
  if I < 0 then .wild
  else
    match data[I.toNat]? with
    | some h => .cell h
    | none => .wild

/-- Result of `malloc(n*sizeof(matvar_t *))`. -/
def malloc {α : Type} (n : Int) : Option (List (Ptr α)) :=
  if n < 0 then none else some (List.replicate n.toNat Ptr.unset)

/-- Assignment `cells[k] = v`. -/
def store {α : Type} (cells : List (Ptr α)) (k : Int) (v : Ptr α) : List (Ptr α) :=
  if k < 0 then cells else cells.set k.toNat v

/-- The starts of innermost runs recorded in a log, as pairs `(i, I)`. -/
def runStarts : List Event → List (Int × Int)
  | [] => []
  | Event.run i I :: l => (i, I) :: runStarts l
  | Event.read _ :: l => runStarts l

/-! ## Mat_VarGetCell -/

/-- Loop `for ( i = 0; i < matvar->rank; i++ ) nmemb *= matvar->dims[i];`
The first argument counts the iterations still to run. -/
def nmembLoop (dims : List Int) : Nat → Nat → Int → Except Fault Int
  | 0, _, nmemb => .ok nmemb
  | n + 1, i, nmemb => do
    let d ← rd dims i
    nmembLoop dims n (i + 1) (wrap (nmemb * d))

/-- Translation of `Mat_VarGetCell`, with the log of its storage reads. -/
def Mat_VarGetCell_run {α : Type} (matvar : Option (matvar_t α)) (index : Int) :
    Except Fault (Ptr α × List Event) :=
  match matvar with
  | none => .ok (.null, [])
  | some mv => do
    let nmemb ← nmembLoop mv.dims mv.rank.toNat 0 1
    if index < nmemb then .ok (deref mv.data index, [Event.read index])
    else .ok (.null, [])

/-- Value returned by `Mat_VarGetCell`. -/
def Mat_VarGetCell {α : Type} (matvar : Option (matvar_t α)) (index : Int) :
    Except Fault (Ptr α) :=
  (Mat_VarGetCell_run matvar index).map Prod.fst

/-! ## Mat_VarGetCellsLinear -/

/-- Loop `for ( i = 0; i < edge; i++ ) { cells[i] = data[I]; I += stride; }`
The first argument counts the iterations still to run; the result is the
array and the log of the reads. -/
def linearLoop {α : Type} (data : List α) (stride : Int) :
    Nat → Nat → List (Ptr α) → Int → List (Ptr α) × List Event
  | 0, _, cells, _ => (cells, [])
  | n + 1, i, cells, I =>
    let r := linearLoop data stride n (i + 1) (cells.set i (deref data I)) (wrap (I + stride))
    (r.1, Event.read I :: r.2)

/-- Translation of `Mat_VarGetCellsLinear`, with the log of its storage reads.
The parameter `start` is not used by the body, as in the source, where `I`
begins at 0. -/
def Mat_VarGetCellsLinear_run {α : Type} (matvar : Option (matvar_t α))
    (_start stride edge : Int) : Option (List (Ptr α)) × List Event :=
  match matvar with
  | none => (none, [])
  | some mv =>
    if mv.rank > 10 then (none, [])
    else
      match malloc edge with
      | none => (none, [])
      | some cells =>
        let r := linearLoop mv.data stride edge.toNat 0 cells 0
        (some r.1, r.2)

/-- Value returned by `Mat_VarGetCellsLinear`. -/
def Mat_VarGetCellsLinear {α : Type} (matvar : Option (matvar_t α))
    (start stride edge : Int) : Option (List (Ptr α)) :=
  (Mat_VarGetCellsLinear_run matvar start stride edge).1

/-! ## Mat_VarGetCells -/

/-- Locals `inc`, `dimp`, `N`, `I` after the set-up part, together with the
entries `stride[0]`, `edge[0]`, `dims[0]`, `start[0]` that the traversal reads
again. -/
structure Setup where
  inc : Nat → Int
  dimp : Nat → Int
  N : Int
  I : Int
  stride0 : Int
  edge0 : Int
  dims0 : Int
  start0 : Int

/-- Loop `for ( j = i ; j--; ) { inc[i] *= dims[j]; dimp[i] *= dims[j+1]; }`
on the two accumulators `inc[i]` and `dimp[i]`; the first argument is the value
of `j` at the test. -/
def prodLoop (dims : List Int) : Nat → Int → Int → Except Fault (Int × Int)
  | 0, a, b => .ok (a, b)
  | j + 1, a, b => do
    let dj ← rd dims j
    let dj1 ← rd dims (j + 1)
    prodLoop dims j (wrap (a * dj)) (wrap (b * dj1))

/-- Loop `for ( i = 1; i < matvar->rank; i++ )` of lines 94-104.  The first
argument counts the iterations still to run. -/
def setupLoop (dims start stride edge : List Int) :
    Nat → Nat → Setup → Except Fault Setup
  | 0, _, s => .ok s
  | n + 1, i, s => do
    let si ← rd stride i
    let dp ← rd dims (i - 1)
    let (a, b) ← prodLoop dims i (wrap (si - 1)) dp
    let inc := Function.update s.inc i a
    let dimp := Function.update s.dimp i b
    let ei ← rd edge i
    let sti ← rd start i
    let I := if sti > 0 then wrap (s.I + wrap (sti * dimp (i - 1))) else s.I
    setupLoop dims start stride edge n (i + 1)
      { s with inc := inc, dimp := dimp, N := wrap (s.N * ei), I := I }

/-- Lines 90-104 of `Mat_VarGetCells`: the locals as they stand before the
allocation. -/
def setup (dims start stride edge : List Int) (rank : Int) : Except Fault Setup := do
  let stride0 ← rd stride 0
  let dims0 ← rd dims 0
  let edge0 ← rd edge 0
  let start0 ← rd start 0
  setupLoop dims start stride edge (rank - 1).toNat 1
    { inc := Function.update (fun _ => 0) 0 (wrap (stride0 - 1)),
      dimp := Function.update (fun _ => 0) 0 dims0,
      N := edge0, I := start0,
      stride0 := stride0, edge0 := edge0, dims0 := dims0, start0 := start0 }

/-- Loop `for ( j = 0; j < edge[0]; j++ ) { cells[i+j] = data[I]; I += stride[0]; }`
The first argument counts the iterations still to run; the result is the
array, the final `I` and the log of the reads. -/
def runLoop {α : Type} (data : List α) (stride0 : Int) (i : Int) :
    Nat → Int → List (Ptr α) → Int → List (Ptr α) × Int × List Event
  | 0, _, cells, I => (cells, I, [])
  | n + 1, j, cells, I =>
    let r := runLoop data stride0 i n (j + 1) (store cells (wrap (i + j)) (deref data I))
      (wrap (I + stride0))
    (r.1, r.2.1, Event.read I :: r.2.2)

/-- Loop `for ( j = 1; j < matvar->rank-1; j++ )` of lines 111-123, with its
`break`.  `adj` is `matvar->dims[0]-edge[0]*stride[0]-start[0]`.  The first
argument counts the iterations still to run. -/
def carryLoop (edge : List Int) (inc dimp : Nat → Int) (adj : Int) :
    Nat → Nat → (Nat → Int) → Int → Except Fault ((Nat → Int) × Int)
  | 0, _, cnt, I => .ok (cnt, I)
  | n + 1, j, cnt, I => do
    let cnt := Function.update cnt j (wrap (cnt j + 1))
    let ej ← rd edge j
    if ej = 0 then .error .divByZero
    else if (cnt j).tmod ej = 0 then
      let cnt := Function.update cnt j 0
      if dimp j = 0 then .error .divByZero
      else
        let I := if I.tmod (dimp j) ≠ 0 then wrap (I + wrap (dimp j - I.tmod (dimp j))) else I
        carryLoop edge inc dimp adj n (j + 1) cnt I
    else .ok (cnt, wrap (wrap (I + adj) + inc j))

/-- Loop `for ( i = 0; i < N; i+=edge[0] )` of lines 106-124; `nc` is the
number of iterations of the carry loop when it does not `break`.  The first
argument is fuel; running out of it while `i < N` is reported as
`Fault.noReturn`.  The result is the array and the log. -/
def outerLoop {α : Type} (data : List α) (nc : Nat) (edge : List Int)
    (inc dimp : Nat → Int) (stride0 edge0 adj N : Int) :
    Nat → Int → List (Ptr α) → (Nat → Int) → Int →
      Except Fault (List (Ptr α) × List Event)
  | fuel, i, cells, cnt, I =>
    if i < N then
      match fuel with
      | 0 => .error .noReturn
      | fuel + 1 => do
        let r := runLoop data stride0 i edge0.toNat 0 cells I
        let (cnt2, I3) ← carryLoop edge inc dimp adj nc 1 cnt r.2.1
        let (out, log) ← outerLoop data nc edge inc dimp stride0 edge0 adj N fuel
          (wrap (i + edge0)) r.1 cnt2 I3
        .ok (out, Event.run i I :: (r.2.2 ++ log))
    else .ok (cells, [])

/-- Translation of `Mat_VarGetCells`, with the log of its storage reads and
run starts.  The fuel `2^32` given to the traversal loop covers a full period
of the `int` variable `i`. -/
def Mat_VarGetCells_run {α : Type} (matvar : Option (matvar_t α))
    (start stride edge : Option (List Int)) :
    Except Fault (Option (List (Ptr α)) × List Event) :=
  match matvar, start, stride, edge with
  | some mv, some start, some stride, some edge =>
    if mv.rank > 10 then .ok (none, [])
    else do
      let s ← setup mv.dims start stride edge mv.rank
      match malloc s.N with
      | none => .ok (none, [])
      | some cells => do
        let (r, log) ← outerLoop mv.data (wrap (mv.rank - 1) - 1).toNat edge s.inc s.dimp
          s.stride0 s.edge0 (wrap (wrap (s.dims0 - wrap (s.edge0 * s.stride0)) - s.start0))
          s.N 4294967296 0 cells (fun _ => 0) s.I
        .ok (some r, log)
  | _, _, _, _ => .ok (none, [])

/-- Value returned by `Mat_VarGetCells`. -/
def Mat_VarGetCells {α : Type} (matvar : Option (matvar_t α))
    (start stride edge : Option (List Int)) : Except Fault (Option (List (Ptr α))) :=
  (Mat_VarGetCells_run matvar start stride edge).map Prod.fst

/-! ## Closed forms used in the statements -/

/-- Product `dims[0] * ... * dims[j-1]`. -/
def leadProd (dims : List Int) (j : Nat) : Int :=
  ∏ k ∈ Finset.range j, dims.getD k 0

/-- Product `dims[1] * ... * dims[j]`. -/
def shiftProd (dims : List Int) (j : Nat) : Int :=
  ∏ k ∈ Finset.range j, dims.getD (k + 1) 0

/-! ## Arithmetic of `int` -/

theorem wrap_isInt (x : Int) : IsInt (wrap x) := by
  unfold wrap IsInt
  omega

theorem wrap_eq {x : Int} (h : IsInt x) : wrap x = x := by
  unfold IsInt at h
  unfold wrap
  omega

theorem wrap_wrap (x : Int) : wrap (wrap x) = wrap x :=
  wrap_eq (wrap_isInt x)

theorem wrap_add_left (a b : Int) : wrap (wrap a + b) = wrap (a + b) := by
  unfold wrap
  omega

theorem wrap_add_right (a b : Int) : wrap (a + wrap b) = wrap (a + b) := by
  unfold wrap
  omega

theorem wrap_modEq (x : Int) : wrap x ≡ x [ZMOD 4294967296] := by
  unfold wrap Int.ModEq
  omega

theorem wrap_congr {a b : Int} (h : a ≡ b [ZMOD 4294967296]) : wrap a = wrap b := by
  unfold Int.ModEq at h
  unfold wrap
  omega

theorem wrap_mul_left (a b : Int) : wrap (wrap a * b) = wrap (a * b) :=
  wrap_congr ((wrap_modEq a).mul_right b)

theorem wrap_mul_right (a b : Int) : wrap (a * wrap b) = wrap (a * b) :=
  wrap_congr ((wrap_modEq b).mul_left a)

/-! ## Basic facts about the primitives -/

theorem rd_ok {xs : List Int} {i : Nat} (h : i < xs.length) :
    rd xs i = .ok (xs.getD i 0) := by
  simp [rd, List.getElem?_eq_getElem h, List.getD_eq_getElem?_getD]

theorem deref_natCast {α : Type} (data : List α) (k : Nat) (h : k < data.length) :
    deref data (k : Int) = Ptr.cell (data.get ⟨k, h⟩) := by
  have h0 : ¬ ((k : Int) < 0) := by omega
  simp [deref, h0, List.getElem?_eq_getElem h]

theorem getD_mem (xs : List Int) (k : Nat) (h : k < xs.length) : xs.getD k 0 ∈ xs := by
  rw [List.getD_eq_getElem _ _ h]
  exact List.getElem_mem h

theorem prod_range_getD (xs : List Int) :
    ∏ k ∈ Finset.range xs.length, xs.getD k 0 = xs.prod := by
  induction xs with
  | nil => simp
  | cons x tl ih =>
    rw [List.length_cons, Finset.prod_range_succ', List.prod_cons]
    simp only [List.getD_cons_succ, List.getD_cons_zero, ih]
    ring

theorem getD_replicate_zero (n k : Nat) : (List.replicate n (0 : Int)).getD k 0 = 0 := by
  rw [List.getD_eq_getElem?_getD, List.getElem?_replicate]
  split <;> rfl

theorem getD_replicate_one (n k : Nat) (h : k < n) :
    (List.replicate n (1 : Int)).getD k 0 = 1 := by
  rw [List.getD_eq_getElem?_getD, List.getElem?_replicate, if_pos h]
  rfl

theorem prod_eq_head_mul_tail (xs : List Int) (h : 0 < xs.length) :
    xs.prod = xs.tail.prod * xs.getD 0 0 := by
  cases xs with
  | nil => simp at h
  | cons x tl => simp [mul_comm]

theorem eq_range_map {β : Type} (r : List β) (n : Nat) (f : Nat → β)
    (hlen : r.length = n) (hget : ∀ k : Nat, k < n → r[k]? = some (f k)) :
    r = (List.range n).map f := by
  apply List.ext_getElem?
  intro k
  by_cases hk : k < n
  · rw [hget k hk]
    simp [List.getElem?_map, List.getElem?_range hk]
  · have h1 : n ≤ k := by omega
    simp [List.getElem?_eq_none, h1, hlen]

/-- The loop of `Mat_VarGetCell` leaves in `nmemb` the product of the
dimensions reduced to `int`. -/
theorem nmembLoop_append (pre suf : List Int) (acc : Int) (hacc : wrap acc = acc) :
    nmembLoop (pre ++ suf) suf.length pre.length acc = .ok (wrap (acc * suf.prod)) := by
  induction suf generalizing pre acc with
  | nil => simp [nmembLoop, hacc]
  | cons d tl ih =>
    have h1 : rd (pre ++ d :: tl) pre.length = .ok d := by
      have : (pre ++ d :: tl)[pre.length]? = some d := by
        rw [List.getElem?_append_right (le_refl _)]
        simp
      simp only [rd, this]
    have h2 := ih (pre ++ [d]) (wrap (acc * d)) (wrap_wrap _)
    simp only [List.append_assoc, List.singleton_append, List.length_append,
      List.length_singleton] at h2
    simp only [List.length_cons, nmembLoop, h1]
    show nmembLoop (pre ++ d :: tl) tl.length (pre.length + 1) (wrap (acc * d)) = _
    rw [h2, List.prod_cons, wrap_mul_left, mul_assoc]

theorem nmembLoop_all (dims : List Int) :
    nmembLoop dims dims.length 0 1 = .ok (wrap dims.prod) := by
  simpa using nmembLoop_append [] dims 1 (by decide)

theorem linearLoop_succ {α : Type} (data : List α) (stride : Int) (n i : Nat)
    (cells : List (Ptr α)) (I : Int) :
    (linearLoop data stride (n + 1) i cells I).1
      = (linearLoop data stride n (i + 1) (cells.set i (deref data I))
          (wrap (I + stride))).1 := rfl

theorem linearLoop_length {α : Type} (data : List α) (stride : Int) (n i : Nat)
    (cells : List (Ptr α)) (I : Int) :
    (linearLoop data stride n i cells I).1.length = cells.length := by
  induction n generalizing i cells I with
  | zero => rfl
  | succ n ih => rw [linearLoop_succ, ih, List.length_set]

/-- Slot `k` after the loop of `Mat_VarGetCellsLinear`: the slots `i .. i+n-1`
hold the reads at `I, I+stride, ...` (in `int` arithmetic), the others are
untouched. -/
theorem linearLoop_get {α : Type} (data : List α) (stride : Int) (n i : Nat)
    (cells : List (Ptr α)) (I : Int) (hI : wrap I = I) (h : i + n ≤ cells.length)
    (k : Nat) :
    (linearLoop data stride n i cells I).1[k]? =
      if i ≤ k ∧ k < i + n then
        some (deref data (wrap (I + ((k - i : Nat) : Int) * stride)))
      else cells[k]? := by
  induction n generalizing i cells I with
  | zero =>
    have hk : ¬ (i ≤ k ∧ k < i + 0) := by omega
    rw [if_neg hk]
    rfl
  | succ n ih =>
    have hlen : i + 1 + n ≤ (cells.set i (deref data I)).length := by
      rw [List.length_set]; omega
    rw [linearLoop_succ, ih (i + 1) _ _ (wrap_wrap _) hlen]
    by_cases hk : i + 1 ≤ k ∧ k < i + 1 + n
    · have hk2 : i ≤ k ∧ k < i + (n + 1) := by omega
      rw [if_pos hk, if_pos hk2, wrap_add_left]
      have e : I + stride + ((k - (i + 1) : Nat) : Int) * stride
          = I + ((k - i : Nat) : Int) * stride := by
        have : ((k - i : Nat) : Int) = ((k - (i + 1) : Nat) : Int) + 1 := by omega
        rw [this]; ring
      rw [e]
    · rw [if_neg hk]
      by_cases hki : k = i
      · subst hki
        have hk2 : k ≤ k ∧ k < k + (n + 1) := by omega
        have hkl : k < cells.length := by omega
        rw [if_pos hk2]
        simp [List.getElem?_set, hkl, hI]
      · have hk2 : ¬ (i ≤ k ∧ k < i + (n + 1)) := by omega
        rw [if_neg hk2, List.getElem?_set]
        rw [if_neg (fun h => hki h.symm)]

/-- Closed form of the inner product loop of the set-up part, for accumulators
that are `int` values. -/
theorem prodLoop_eq (dims : List Int) (j : Nat) (a b : Int) (ha : wrap a = a)
    (hb : wrap b = b) (hj : j < dims.length) :
    prodLoop dims j a b = .ok (wrap (a * leadProd dims j), wrap (b * shiftProd dims j)) := by
  induction j generalizing a b with
  | zero => simp [prodLoop, leadProd, shiftProd, ha, hb]
  | succ j ih =>
    have h1 : rd dims j = .ok (dims.getD j 0) := rd_ok (by omega)
    have h2 : rd dims (j + 1) = .ok (dims.getD (j + 1) 0) := rd_ok hj
    simp only [prodLoop, h1, h2]
    show prodLoop dims j (wrap (a * dims.getD j 0)) (wrap (b * dims.getD (j + 1) 0)) = _
    rw [ih _ _ (wrap_wrap _) (wrap_wrap _) (by omega), wrap_mul_left, wrap_mul_left]
    simp only [leadProd, shiftProd, Finset.prod_range_succ]
    congr 2 <;> congr 1 <;> ring

/-- Closed form of the inner product loop when it runs at least once. -/
theorem prodLoop_succ_eq (dims : List Int) (j : Nat) (a b : Int)
    (hj : j + 1 < dims.length) :
    prodLoop dims (j + 1) a b
      = .ok (wrap (a * leadProd dims (j + 1)), wrap (b * shiftProd dims (j + 1))) := by
  have h1 : rd dims j = .ok (dims.getD j 0) := rd_ok (by omega)
  have h2 : rd dims (j + 1) = .ok (dims.getD (j + 1) 0) := rd_ok hj
  simp only [prodLoop, h1, h2]
  show prodLoop dims j (wrap (a * dims.getD j 0)) (wrap (b * dims.getD (j + 1) 0)) = _
  rw [prodLoop_eq _ _ _ _ (wrap_wrap _) (wrap_wrap _) (by omega), wrap_mul_left,
    wrap_mul_left]
  simp only [leadProd, shiftProd, Finset.prod_range_succ]
  congr 2 <;> congr 1 <;> ring

/-- Closed form of the set-up loop run from index `i` for `n` iterations. -/
theorem setupLoop_spec (dims start stride edge : List Int) (n i : Nat) (s : Setup)
    (hi : 1 ≤ i) (hd : i + n ≤ dims.length) (hst : i + n ≤ start.length)
    (hsr : i + n ≤ stride.length) (he : i + n ≤ edge.length) :
    ∃ t, setupLoop dims start stride edge n i s = .ok t ∧
      (t.stride0 = s.stride0 ∧ t.edge0 = s.edge0 ∧ t.dims0 = s.dims0 ∧
        t.start0 = s.start0) ∧
      (wrap s.N = s.N → t.N = wrap (s.N * ∏ k ∈ Finset.Ico i (i + n), edge.getD k 0)) ∧
      (0 < n → t.N = wrap (s.N * ∏ k ∈ Finset.Ico i (i + n), edge.getD k 0)) ∧
      (∀ k, t.dimp k = if i ≤ k ∧ k < i + n then
          wrap (dims.getD (k - 1) 0 * shiftProd dims k)
        else s.dimp k) ∧
      (∀ k, t.inc k = if i ≤ k ∧ k < i + n then
          wrap ((stride.getD k 0 - 1) * leadProd dims k)
        else s.inc k) ∧
      (wrap s.I = s.I → t.I = wrap (s.I + ∑ k ∈ Finset.Ico i (i + n),
        (if 0 < start.getD k 0 then start.getD k 0 * t.dimp (k - 1) else 0))) := by
  induction n generalizing i s with
  | zero =>
    refine ⟨s, rfl, ⟨rfl, rfl, rfl, rfl⟩, fun h => ?_, fun h => absurd h (lt_irrefl 0),
      fun k => ?_, fun k => ?_, fun h => ?_⟩
    · simp [h]
    · rw [if_neg (by omega)]
    · rw [if_neg (by omega)]
    · simp [h]
  | succ n ih =>
    have h1 : rd stride i = .ok (stride.getD i 0) := rd_ok (by omega)
    have h2 : rd dims (i - 1) = .ok (dims.getD (i - 1) 0) := rd_ok (by omega)
    have h3 : rd edge i = .ok (edge.getD i 0) := rd_ok (by omega)
    have h4 : rd start i = .ok (start.getD i 0) := rd_ok (by omega)
    obtain ⟨i0, rfl⟩ : ∃ i0, i = i0 + 1 := ⟨i - 1, by omega⟩
    have h5 := prodLoop_succ_eq dims i0 (wrap (stride.getD (i0 + 1) 0 - 1))
      (dims.getD (i0 + 1 - 1) 0) (by omega)
    rw [wrap_mul_left] at h5
    obtain ⟨t, ht, hfix, hN, -, hdimp, hinc, hI⟩ := ih (i0 + 1 + 1)
      { s with
        inc := Function.update s.inc (i0 + 1)
          (wrap ((stride.getD (i0 + 1) 0 - 1) * leadProd dims (i0 + 1))),
        dimp := Function.update s.dimp (i0 + 1)
          (wrap (dims.getD (i0 + 1 - 1) 0 * shiftProd dims (i0 + 1))),
        N := wrap (s.N * edge.getD (i0 + 1) 0),
        I := if start.getD (i0 + 1) 0 > 0 then
            wrap (s.I + wrap (start.getD (i0 + 1) 0 *
              Function.update s.dimp (i0 + 1)
                (wrap (dims.getD (i0 + 1 - 1) 0 * shiftProd dims (i0 + 1))) (i0 + 1 - 1)))
          else s.I }
      (by omega) (by omega) (by omega) (by omega) (by omega)
    dsimp only at hfix hN hdimp hinc hI
    have hii : i0 + 1 < i0 + 1 + (n + 1) := by omega
    have hne : i0 + 1 - 1 ≠ i0 + 1 := by omega
    have hNall : t.N = wrap (s.N * ∏ k ∈ Finset.Ico (i0 + 1) (i0 + 1 + (n + 1)),
        edge.getD k 0) := by
      rw [hN (wrap_wrap _), wrap_mul_left, Finset.prod_eq_prod_Ico_succ_bot hii]
      simp only [Nat.add_assoc, Nat.add_comm 1 n]
      congr 1
      ring
    refine ⟨t, ?_, hfix, fun _ => hNall, fun _ => hNall, fun k => ?_, fun k => ?_,
      fun hsI => ?_⟩
    · simp only [setupLoop, h1, h2, h3, h4, bind, Except.bind, h5]
      exact ht
    · rw [hdimp k]
      by_cases hk : i0 + 1 + 1 ≤ k ∧ k < i0 + 1 + 1 + n
      · have hk2 : i0 + 1 ≤ k ∧ k < i0 + 1 + (n + 1) := by omega
        rw [if_pos hk, if_pos hk2]
      · rw [if_neg hk]
        by_cases hki : k = i0 + 1
        · subst hki
          have hk2 : i0 + 1 ≤ i0 + 1 ∧ i0 + 1 < i0 + 1 + (n + 1) := by omega
          rw [if_pos hk2, Function.update_same]
        · have hk2 : ¬ (i0 + 1 ≤ k ∧ k < i0 + 1 + (n + 1)) := by omega
          rw [if_neg hk2, Function.update_noteq hki]
    · rw [hinc k]
      by_cases hk : i0 + 1 + 1 ≤ k ∧ k < i0 + 1 + 1 + n
      · have hk2 : i0 + 1 ≤ k ∧ k < i0 + 1 + (n + 1) := by omega
        rw [if_pos hk, if_pos hk2]
      · rw [if_neg hk]
        by_cases hki : k = i0 + 1
        · subst hki
          have hk2 : i0 + 1 ≤ i0 + 1 ∧ i0 + 1 < i0 + 1 + (n + 1) := by omega
          rw [if_pos hk2, Function.update_same]
        · have hk2 : ¬ (i0 + 1 ≤ k ∧ k < i0 + 1 + (n + 1)) := by omega
          rw [if_neg hk2, Function.update_noteq hki]
    · have hprev : t.dimp (i0 + 1 - 1) = s.dimp (i0 + 1 - 1) := by
        have hk2 : ¬ (i0 + 1 + 1 ≤ i0 + 1 - 1 ∧ i0 + 1 - 1 < i0 + 1 + 1 + n) := by omega
        rw [hdimp (i0 + 1 - 1), if_neg hk2, Function.update_noteq hne]
      rw [Function.update_noteq hne] at hI
      have hS : i0 + 1 + (n + 1) = i0 + 1 + 1 + n := by omega
      rw [Finset.sum_eq_sum_Ico_succ_bot hii, hprev, hS]
      simp only [gt_iff_lt] at hI
      generalize (∑ k ∈ Finset.Ico (i0 + 1 + 1) (i0 + 1 + 1 + n),
        if 0 < start.getD k 0 then start.getD k 0 * t.dimp (k - 1) else 0) = S at hI
      by_cases hpos : 0 < start.getD (i0 + 1) 0
      · rw [if_pos hpos] at hI
        rw [hI (wrap_wrap _), if_pos hpos]
        generalize start.getD (i0 + 1) 0 * s.dimp (i0 + 1 - 1) = x
        unfold wrap
        omega
      · rw [if_neg hpos] at hI
        rw [hI hsI, if_neg hpos, zero_add]

/-- Closed form of the locals after the set-up part of `Mat_VarGetCells`. -/
theorem setup_spec (dims start stride edge : List Int) (rank : Int)
    (hrank0 : 0 < rank) (hdims : (dims.length : Int) = rank)
    (hstart : (start.length : Int) = rank) (hstride : (stride.length : Int) = rank)
    (hedge : (edge.length : Int) = rank) :
    ∃ s, setup dims start stride edge rank = .ok s ∧
      (s.stride0 = stride.getD 0 0 ∧ s.edge0 = edge.getD 0 0 ∧ s.dims0 = dims.getD 0 0 ∧
        s.start0 = start.getD 0 0) ∧
      (IsInt edge.prod → s.N = edge.prod) ∧
      s.dimp 0 = dims.getD 0 0 ∧
      (∀ k, 1 ≤ k → k < dims.length →
        s.dimp k = wrap (dims.getD (k - 1) 0 * shiftProd dims k)) ∧
      s.inc 0 = wrap (stride.getD 0 0 - 1) ∧
      (∀ k, 1 ≤ k → k < dims.length →
        s.inc k = wrap ((stride.getD k 0 - 1) * leadProd dims k)) ∧
      (IsInt (start.getD 0 0) →
        s.I = wrap (start.getD 0 0 + ∑ k ∈ Finset.Ico 1 dims.length,
          (if 0 < start.getD k 0 then start.getD k 0 * s.dimp (k - 1) else 0))) := by
  have h1 : rd stride 0 = .ok (stride.getD 0 0) := rd_ok (by omega)
  have h2 : rd dims 0 = .ok (dims.getD 0 0) := rd_ok (by omega)
  have h3 : rd edge 0 = .ok (edge.getD 0 0) := rd_ok (by omega)
  have h4 : rd start 0 = .ok (start.getD 0 0) := rd_ok (by omega)
  have hn : 1 + (rank - 1).toNat = edge.length := by omega
  have hn2 : 1 + (rank - 1).toNat = dims.length := by omega
  obtain ⟨t, ht, hfix, hN1, hN2, hdimp, hinc, hI⟩ := setupLoop_spec dims start stride edge
    (rank - 1).toNat 1
    { inc := Function.update (fun _ => 0) 0 (wrap (stride.getD 0 0 - 1)),
      dimp := Function.update (fun _ => 0) 0 (dims.getD 0 0),
      N := edge.getD 0 0, I := start.getD 0 0,
      stride0 := stride.getD 0 0, edge0 := edge.getD 0 0, dims0 := dims.getD 0 0,
      start0 := start.getD 0 0 }
    (le_refl _) (by omega) (by omega) (by omega) (by omega)
  dsimp only at hfix hN1 hN2 hdimp hinc hI
  have hprod : edge.getD 0 0 * ∏ k ∈ Finset.Ico 1 (1 + (rank - 1).toNat), edge.getD k 0
      = edge.prod := by
    rw [hn, ← prod_range_getD edge, Finset.range_eq_Ico,
      Finset.prod_eq_prod_Ico_succ_bot (by omega : 0 < edge.length)]
  refine ⟨t, ?_, hfix, fun hfit => ?_, ?_, fun k hk1 hk2 => ?_, ?_, fun k hk1 hk2 => ?_,
    fun hfit => ?_⟩
  · simp only [setup, h1, h2, h3, h4, bind, Except.bind, ht]
  · rcases Nat.eq_zero_or_pos (rank - 1).toNat with h0 | hpos
    · have he0 : edge.getD 0 0 = edge.prod := by
        rw [← hprod, h0]; simp
      rw [hN1 (by rw [he0]; exact wrap_eq hfit), hprod]
      exact wrap_eq hfit
    · rw [hN2 hpos, hprod]
      exact wrap_eq hfit
  · have hk : ¬ (1 ≤ 0 ∧ 0 < 1 + (rank - 1).toNat) := by omega
    rw [hdimp 0, if_neg hk, Function.update_same]
  · have hk : 1 ≤ k ∧ k < 1 + (rank - 1).toNat := by omega
    rw [hdimp k, if_pos hk]
  · have hk : ¬ (1 ≤ 0 ∧ 0 < 1 + (rank - 1).toNat) := by omega
    rw [hinc 0, if_neg hk, Function.update_same]
  · have hk : 1 ≤ k ∧ k < 1 + (rank - 1).toNat := by omega
    rw [hinc k, if_pos hk]
  · rw [hI (wrap_eq hfit), hn2]

/-! ## The loops of the traversal -/

theorem runStarts_append (a b : List Event) :
    runStarts (a ++ b) = runStarts a ++ runStarts b := by
  induction a with
  | nil => rfl
  | cons e tl ih =>
    cases e with
    | read I => simpa [runStarts] using ih
    | run i I => simp [runStarts, ih]

theorem runLoop_succ {α : Type} (data : List α) (stride0 : Int) (i : Int) (n : Nat)
    (j : Int) (cells : List (Ptr α)) (I : Int) :
    runLoop data stride0 i (n + 1) j cells I
      = ((runLoop data stride0 i n (j + 1) (store cells (wrap (i + j)) (deref data I))
            (wrap (I + stride0))).1,
          (runLoop data stride0 i n (j + 1) (store cells (wrap (i + j)) (deref data I))
            (wrap (I + stride0))).2.1,
          Event.read I :: (runLoop data stride0 i n (j + 1)
            (store cells (wrap (i + j)) (deref data I)) (wrap (I + stride0))).2.2) := rfl

/-- An innermost run records no run start. -/
theorem runStarts_runLoop {α : Type} (data : List α) (stride0 : Int) (i : Int) (n : Nat)
    (j : Int) (cells : List (Ptr α)) (I : Int) :
    runStarts (runLoop data stride0 i n j cells I).2.2 = [] := by
  induction n generalizing j cells I with
  | zero => rfl
  | succ n ih =>
    rw [runLoop_succ]
    exact ih _ _ _

/-- The innermost run writes like the loop of `Mat_VarGetCellsLinear` started
at slot `i+j`, as long as the slots written are numbered below `2^31`. -/
theorem runLoop_cells {α : Type} (data : List α) (stride0 : Int) (i : Int) (n : Nat)
    (j : Int) (cells : List (Ptr α)) (I : Int) (hij : 0 ≤ i + j)
    (hfit : i + j + (n : Int) ≤ 2147483648) :
    (runLoop data stride0 i n j cells I).1
      = (linearLoop data stride0 n (i + j).toNat cells I).1 := by
  induction n generalizing j cells I with
  | zero => rfl
  | succ n ih =>
    have e : (i + (j + 1)).toNat = (i + j).toNat + 1 := by omega
    have hw : wrap (i + j) = i + j := wrap_eq ⟨by omega, by omega⟩
    have hs : store cells (wrap (i + j)) (deref data I)
        = cells.set (i + j).toNat (deref data I) := by
      rw [hw, store, if_neg (by omega)]
    rw [runLoop_succ, linearLoop_succ]
    show (runLoop data stride0 i n (j + 1) (store cells (wrap (i + j)) (deref data I))
      (wrap (I + stride0))).1 = _
    rw [ih (j + 1) _ _ (by omega) (by push_cast at hfit ⊢; omega), e, hs]

/-- The innermost run advances `I` by `stride[0]` per slot, in `int`
arithmetic. -/
theorem runLoop_I {α : Type} (data : List α) (stride0 : Int) (i : Int) (n : Nat)
    (j : Int) (cells : List (Ptr α)) (I : Int) (hI : wrap I = I) :
    (runLoop data stride0 i n j cells I).2.1 = wrap (I + (n : Int) * stride0) := by
  induction n generalizing j cells I with
  | zero => simp [runLoop, hI]
  | succ n ih =>
    rw [runLoop_succ]
    show (runLoop data stride0 i n (j + 1) (store cells (wrap (i + j)) (deref data I))
      (wrap (I + stride0))).2.1 = _
    rw [ih _ _ _ (wrap_wrap _), wrap_add_left]
    congr 1
    push_cast
    ring

theorem outerLoop_exit {α : Type} (data : List α) (nc : Nat) (edge : List Int)
    (inc dimp : Nat → Int) (stride0 edge0 adj N : Int)
    (fuel : Nat) (i : Int) (cells : List (Ptr α)) (cnt : Nat → Int) (I : Int)
    (h : ¬ i < N) :
    outerLoop data nc edge inc dimp stride0 edge0 adj N fuel i cells cnt I
      = .ok (cells, []) := by
  unfold outerLoop
  rw [if_neg h]

/-- One pass of the traversal loop. -/
theorem outerLoop_succ {α : Type} (data : List α) (nc : Nat) (edge : List Int)
    (inc dimp : Nat → Int) (stride0 edge0 adj N : Int)
    (fuel : Nat) (i : Int) (cells : List (Ptr α)) (cnt : Nat → Int) (I : Int)
    (h : i < N) :
    outerLoop data nc edge inc dimp stride0 edge0 adj N (fuel + 1) i cells cnt I
      = match carryLoop edge inc dimp adj nc 1 cnt
          (runLoop data stride0 i edge0.toNat 0 cells I).2.1 with
        | .error e => .error e
        | .ok p =>
          match outerLoop data nc edge inc dimp stride0 edge0 adj N fuel (wrap (i + edge0))
            (runLoop data stride0 i edge0.toNat 0 cells I).1 p.1 p.2 with
          | .error e => .error e
          | .ok q => .ok (q.1, Event.run i I ::
              ((runLoop data stride0 i edge0.toNat 0 cells I).2.2 ++ q.2)) := by
  rw [outerLoop, if_pos h]
  simp only [bind, Except.bind]
  cases carryLoop edge inc dimp adj nc 1 cnt
      (runLoop data stride0 i edge0.toNat 0 cells I).2.1 with
  | error e => rfl
  | ok p =>
    simp only []
    cases outerLoop data nc edge inc dimp stride0 edge0 adj N fuel (wrap (i + edge0))
        (runLoop data stride0 i edge0.toNat 0 cells I).1 p.1 p.2 with
    | error e => rfl
    | ok q => rfl

/-- Traversal without effective carry.  When the carry loop leaves `I`
unchanged after every innermost run, slot `k` of the result is the read at
`I0 + k*stride[0]` (in `int` arithmetic), and every run starts with
`I = I0 + i*stride[0]`. -/
theorem outerLoop_progression_from {α : Type} (data : List α) (nc : Nat)
    (edge : List Int) (inc dimp : Nat → Int) (stride0 edge0 adj N M I0 : Int)
    (Inv : Int → (Nat → Int) → Prop)
    (he0 : 0 < edge0) (hN : N = M * edge0) (hNfit : N < 2147483648)
    (hcarry : ∀ (q : Int) (cnt : Nat → Int), 0 ≤ q → q < M → Inv q cnt →
      ∃ cnt2, carryLoop edge inc dimp adj nc 1 cnt (wrap (I0 + (q + 1) * edge0 * stride0))
          = .ok (cnt2, wrap (I0 + (q + 1) * edge0 * stride0)) ∧
        Inv (q + 1) cnt2)
    (fuel : Nat) (q : Int) (cells : List (Ptr α)) (cnt : Nat → Int)
    (hq : 0 ≤ q) (hfuel : (M - q).toNat ≤ fuel)
    (hcells : cells.length = N.toNat) (hInv : Inv q cnt)
    (hfilled : ∀ k : Nat, k < (q * edge0).toNat →
      cells[k]? = some (deref data (wrap (I0 + (k : Int) * stride0)))) :
    ∃ r log, outerLoop data nc edge inc dimp stride0 edge0 adj N fuel (q * edge0)
          cells cnt (wrap (I0 + q * edge0 * stride0)) = .ok (r, log) ∧
      r.length = N.toNat ∧
      (∀ k : Nat, k < N.toNat →
        r[k]? = some (deref data (wrap (I0 + (k : Int) * stride0)))) ∧
      (runStarts log).length = (M - q).toNat ∧
      ∀ p ∈ runStarts log, (0 ≤ p.1 ∧ p.1 < N) ∧ p.2 = wrap (I0 + p.1 * stride0) := by
  induction fuel generalizing q cells cnt with
  | zero =>
    have hMq : M ≤ q := by omega
    have hle : N ≤ q * edge0 := by
      rw [hN]; exact mul_le_mul_of_nonneg_right hMq (le_of_lt he0)
    rw [outerLoop_exit _ _ _ _ _ _ _ _ _ _ _ _ _ _ (not_lt.mpr hle)]
    refine ⟨cells, [], rfl, hcells, fun k hk => hfilled k (by omega), ?_, ?_⟩
    · simp only [runStarts, List.length_nil]; omega
    · intro p hp; cases hp
  | succ fuel ih =>
    by_cases hi : q * edge0 < N
    · have hqM : q < M := by
        by_contra hc
        have hMq : M ≤ q := by omega
        have h2 : N ≤ q * edge0 := by
          rw [hN]; exact mul_le_mul_of_nonneg_right hMq (le_of_lt he0)
        omega
      have hle : (q + 1) * edge0 ≤ N := by
        rw [hN]; exact mul_le_mul_of_nonneg_right (by omega) (le_of_lt he0)
      have hqe : 0 ≤ q * edge0 := mul_nonneg hq (le_of_lt he0)
      have hstep : q * edge0 + edge0 = (q + 1) * edge0 := by ring
      have hrun := runLoop_cells data stride0 (q * edge0) edge0.toNat 0 cells
        (wrap (I0 + q * edge0 * stride0)) (by omega) (by rw [← hstep] at hle; omega)
      have hrunI := runLoop_I data stride0 (q * edge0) edge0.toNat 0 cells
        (wrap (I0 + q * edge0 * stride0)) (wrap_wrap _)
      have hI2 : wrap (wrap (I0 + q * edge0 * stride0) + (edge0.toNat : Int) * stride0)
          = wrap (I0 + (q + 1) * edge0 * stride0) := by
        rw [wrap_add_left, Int.toNat_of_nonneg (le_of_lt he0)]
        congr 1; ring
      rw [hI2] at hrunI
      obtain ⟨cnt2, hc, hInv2⟩ := hcarry q cnt hq hqM hInv
      have hw : wrap (q * edge0 + edge0) = (q + 1) * edge0 := by
        rw [hstep]; exact wrap_eq ⟨by nlinarith, by omega⟩
      have hfit : (q * edge0).toNat + edge0.toNat ≤ cells.length := by
        rw [hcells]; rw [← hstep] at hle; omega
      obtain ⟨r, log, hrec, hlen, hget, hcount, hlog⟩ := ih (q + 1)
        (runLoop data stride0 (q * edge0) edge0.toNat 0 cells
          (wrap (I0 + q * edge0 * stride0))).1 cnt2 (by omega) (by omega)
        (by rw [hrun, linearLoop_length]; exact hcells) hInv2
        (by
          intro k hk
          rw [hrun, add_zero, linearLoop_get _ _ _ _ _ _ (wrap_wrap _) hfit]
          by_cases hin : (q * edge0).toNat ≤ k ∧ k < (q * edge0).toNat + edge0.toNat
          · rw [if_pos hin, wrap_add_left]
            have e : I0 + q * edge0 * stride0
                + ((k - (q * edge0).toNat : Nat) : Int) * stride0
                = I0 + (k : Int) * stride0 := by
              have : ((k - (q * edge0).toNat : Nat) : Int) = (k : Int) - q * edge0 := by
                omega
              rw [this]; ring
            rw [e]
          · rw [if_neg hin]
            apply hfilled
            rw [← hstep] at hk
            omega)
      rw [outerLoop_succ _ _ _ _ _ _ _ _ _ _ _ _ _ _ hi, hrunI, hc]
      simp only [hw, hrec]
      refine ⟨r, _, rfl, hlen, hget, ?_, ?_⟩
      · simp only [runStarts, runStarts_append, runStarts_runLoop, List.nil_append,
          List.length_cons, hcount]
        omega
      · intro p hp
        simp only [runStarts, runStarts_append, runStarts_runLoop, List.nil_append,
          List.mem_cons] at hp
        rcases hp with h | h
        · rw [h]
          exact ⟨⟨hqe, hi⟩, rfl⟩
        · exact hlog p h
    · have hMq : M ≤ q := by
        by_contra hc
        have h2 : (q + 1) * edge0 ≤ M * edge0 :=
          mul_le_mul_of_nonneg_right (by omega) (le_of_lt he0)
        have h3 : (q + 1) * edge0 = q * edge0 + edge0 := by ring
        rw [← hN, h3] at h2
        omega
      rw [outerLoop_exit _ _ _ _ _ _ _ _ _ _ _ _ _ _ hi]
      refine ⟨cells, [], rfl, hcells, fun k hk => hfilled k (by omega), ?_, ?_⟩
      · simp only [runStarts, List.length_nil]; omega
      · intro p hp; cases hp

/-- The traversal started as `Mat_VarGetCells` starts it, when the carry loop
leaves `I` unchanged after every run: the result lists the reads at
`I0, I0 + stride[0], I0 + 2*stride[0], ...` (in `int` arithmetic). -/
theorem outerLoop_progression {α : Type} (data : List α) (nc : Nat)
    (edge : List Int) (inc dimp : Nat → Int) (stride0 edge0 adj N M I0 : Int)
    (Inv : Int → (Nat → Int) → Prop)
    (he0 : 0 < edge0) (hN : N = M * edge0) (hNfit : N < 2147483648)
    (hI0 : wrap I0 = I0)
    (hcarry : ∀ (q : Int) (cnt : Nat → Int), 0 ≤ q → q < M → Inv q cnt →
      ∃ cnt2, carryLoop edge inc dimp adj nc 1 cnt (wrap (I0 + (q + 1) * edge0 * stride0))
          = .ok (cnt2, wrap (I0 + (q + 1) * edge0 * stride0)) ∧
        Inv (q + 1) cnt2)
    (hInv : Inv 0 (fun _ => 0)) :
    ∃ log, outerLoop data nc edge inc dimp stride0 edge0 adj N 4294967296 0
          (List.replicate N.toNat Ptr.unset) (fun _ => 0) I0
        = .ok ((List.range N.toNat).map
            (fun k : Nat => deref data (wrap (I0 + (k : Int) * stride0))), log) ∧
      (runStarts log).length = M.toNat ∧
      ∀ p ∈ runStarts log, (0 ≤ p.1 ∧ p.1 < N) ∧ p.2 = wrap (I0 + p.1 * stride0) := by
  have hfuel : (M - 0).toNat ≤ 4294967296 := by
    rcases le_or_lt 0 M with h | h
    · have : M ≤ N := by rw [hN]; nlinarith
      omega
    · omega
  obtain ⟨r, log, h1, h2, h3, h5, h4⟩ := outerLoop_progression_from data nc edge inc dimp
    stride0 edge0 adj N M I0 Inv he0 hN hNfit hcarry 4294967296 0
    (List.replicate N.toNat Ptr.unset) (fun _ => 0) (le_refl _) hfuel (by simp) hInv
    (by intro k hk; simp at hk)
  simp only [zero_mul, add_zero, hI0] at h1
  refine ⟨log, ?_, by simpa using h5, h4⟩
  rw [h1, eq_range_map r _ _ h2 h3]

/-- The carry loop of a rank-3 full selection after `q+1` innermost runs: the
counter `cnt[1]` counts runs modulo `dims[1]` and `I` is left where it is. -/
theorem carryLoop_full_rank3 (edge : List Int) (inc dimp : Nat → Int) (d0 d1 I : Int)
    (hd0 : 1 ≤ d0) (hd1 : 1 ≤ d1) (hd1fit : d1 < 2147483648)
    (hlen : 1 < edge.length) (hedge : edge.getD 1 0 = d1)
    (hdimp : dimp 1 = d0 * d1) (hinc : inc 1 = 0)
    (q : Int) (hq : 0 ≤ q) (hI : I = (q + 1) * d0) (hIfit : I < 2147483648)
    (cnt : Nat → Int) (hcnt : cnt 1 = q % d1) :
    ∃ cnt2, carryLoop edge inc dimp 0 1 1 cnt I = .ok (cnt2, I) ∧
      cnt2 1 = (q + 1) % d1 := by
  have hr : rd edge 1 = .ok d1 := by rw [rd_ok hlen, hedge]
  have hd1ne : d1 ≠ 0 := by omega
  have hc0 : 0 ≤ q % d1 := Int.emod_nonneg q hd1ne
  have hc1 : q % d1 < d1 := Int.emod_lt_of_pos q (by omega)
  have hI0 : 0 ≤ I := by rw [hI]; exact mul_nonneg (by omega) (by omega)
  have hup : Function.update cnt 1 (wrap (cnt 1 + 1)) 1 = q % d1 + 1 := by
    rw [Function.update_same, hcnt]
    exact wrap_eq ⟨by omega, by omega⟩
  have htm : (q % d1 + 1).tmod d1 = (q % d1 + 1) % d1 :=
    Int.tmod_eq_emod (by omega) (by omega)
  have hnext : (q + 1) % d1 = (q % d1 + 1) % d1 := (Int.emod_add_emod q d1 1).symm
  have hdp : dimp 1 ≠ 0 := by
    rw [hdimp]; exact mul_ne_zero (by omega) hd1ne
  simp only [carryLoop, hr, bind, Except.bind, if_neg hd1ne, hup, htm, if_neg hdp]
  by_cases hroll : (q % d1 + 1) % d1 = 0
  · rw [if_pos hroll]
    have hdvd : d1 ∣ q + 1 := Int.dvd_of_emod_eq_zero (by rw [hnext]; exact hroll)
    have hIm : I.tmod (dimp 1) = 0 := by
      rw [hdimp, Int.tmod_eq_emod hI0 (mul_nonneg (by omega) (by omega)), hI]
      apply Int.emod_eq_zero_of_dvd
      rw [mul_comm d0 d1]
      exact mul_dvd_mul hdvd (dvd_refl d0)
    refine ⟨Function.update (Function.update cnt 1 (wrap (cnt 1 + 1))) 1 0, ?_, ?_⟩
    · simp only [hIm, ne_eq, not_true_eq_false, if_false]
    · rw [Function.update_same, hnext, hroll]
  · rw [if_neg hroll]
    refine ⟨Function.update cnt 1 (wrap (cnt 1 + 1)), ?_, ?_⟩
    · rw [hinc, add_zero, add_zero, wrap_wrap, wrap_eq ⟨by omega, hIfit⟩]
    · have hlt : q % d1 + 1 < d1 := by
        by_contra hne
        have h2 : q % d1 + 1 = d1 := by omega
        rw [h2, Int.emod_self] at hroll
        exact hroll rfl
      have hmod : (q % d1 + 1) % d1 = q % d1 + 1 := Int.emod_eq_of_lt (by omega) hlt
      rw [hup, hnext, hmod]

/-! ## Mat_VarGetCells as a whole -/

theorem one_le_prod (xs : List Int) (h : ∀ d ∈ xs, 1 ≤ d) : 1 ≤ xs.prod := by
  induction xs with
  | nil => simp
  | cons x tl ih =>
    rw [List.prod_cons]
    have hx : 1 ≤ x := h x (List.mem_cons_self _ _)
    have ht : 1 ≤ tl.prod := ih (fun d hd => h d (List.mem_cons_of_mem _ hd))
    nlinarith

/-- The body of `Mat_VarGetCells` after a successful set-up part. -/
theorem getCells_run_eq {α : Type} (mv : matvar_t α) (start stride edge : List Int)
    (hrank : mv.rank ≤ 10) (s : Setup)
    (hs : setup mv.dims start stride edge mv.rank = .ok s) :
    Mat_VarGetCells_run (some mv) (some start) (some stride) (some edge)
      = match (malloc s.N : Option (List (Ptr α))) with
        | none => .ok (none, [])
        | some cells =>
          match outerLoop mv.data (wrap (mv.rank - 1) - 1).toNat edge s.inc s.dimp
            s.stride0 s.edge0
            (wrap (wrap (s.dims0 - wrap (s.edge0 * s.stride0)) - s.start0))
            s.N 4294967296 0 cells (fun _ => 0) s.I with
          | .error e => .error e
          | .ok p => .ok (some p.1, p.2) := by
  have hr10 : ¬ (mv.rank > 10) := by omega
  simp only [Mat_VarGetCells_run, if_neg hr10, hs, bind, Except.bind]
  cases (malloc s.N : Option (List (Ptr α))) with
  | none => rfl
  | some cells =>
    simp only []
    cases outerLoop mv.data (wrap (mv.rank - 1) - 1).toNat edge s.inc s.dimp
        s.stride0 s.edge0
        (wrap (wrap (s.dims0 - wrap (s.edge0 * s.stride0)) - s.start0))
        s.N 4294967296 0 cells (fun _ => 0) s.I with
    | error e => rfl
    | ok p => rfl

theorem getCells_of_run {α : Type} (matvar : Option (matvar_t α))
    (start stride edge : Option (List Int)) (x : Option (List (Ptr α)))
    (log : List Event)
    (h : Mat_VarGetCells_run matvar start stride edge = .ok (x, log)) :
    Mat_VarGetCells matvar start stride edge = .ok x := by
  simp [Mat_VarGetCells, h, Except.map]

theorem carry_count (rank : Int) (h0 : 0 < rank) (h10 : rank ≤ 10) :
    (wrap (rank - 1) - 1).toNat = (rank - 2).toNat := by
  rw [wrap_eq ⟨by omega, by omega⟩]
  omega

/-- C3 (counterexample): on the 65536 x 65536 array, whose storage has
`product(dims) = 2^32` handles, `nmemb` is `2^32` reduced to `int`, that is 0,
and `Mat_VarGetCell(matvar, 0)` returns `NULL` although `0 < product(dims)`. -/
theorem Mat_VarGetCell_product_overflow :
    (((List.replicate 4294967296 (0 : Nat)).length : Int)
      = ([65536, 65536] : List Int).prod ∧
      (0 : Int) < ([65536, 65536] : List Int).prod) ∧
    Mat_VarGetCell (some ⟨2, [65536, 65536], List.replicate 4294967296 (0 : Nat)⟩) 0
      = .ok Ptr.null := by
  refine ⟨⟨?_, by decide⟩, by decide!⟩
  rw [List.length_replicate]
  decide

/-- C3 (amended): for a descriptor whose `dims` has `rank` entries and whose
storage has `product(dims)` handles, with `product(dims)` at most `INT_MAX`,
and an index `≥ 0`, `Mat_VarGetCell` returns `storage[index]` when
`index < product(dims)` and `NULL` otherwise; for a null descriptor it returns
`NULL` for every index. -/
theorem Mat_VarGetCell_lookup {α : Type} (mv : matvar_t α) (index : Int)
    (hrank : (mv.dims.length : Int) = mv.rank)
    (hdata : (mv.data.length : Int) = mv.dims.prod)
    (hfit : mv.dims.prod < 2147483648)
    (hidx : 0 ≤ index) :
    (index < mv.dims.prod →
      ∃ h, mv.data[index.toNat]? = some h ∧
        Mat_VarGetCell (some mv) index = .ok (Ptr.cell h)) ∧
    (mv.dims.prod ≤ index → Mat_VarGetCell (some mv) index = .ok Ptr.null) ∧
    (∀ k : Int, Mat_VarGetCell (none : Option (matvar_t α)) k = .ok Ptr.null) := by
  have hn : nmembLoop mv.dims mv.rank.toNat 0 1 = .ok mv.dims.prod := by
    rw [← hrank, Int.toNat_natCast, nmembLoop_all, wrap_eq ⟨by omega, hfit⟩]
  refine ⟨fun hlt => ?_, fun hge => ?_, fun k => rfl⟩
  · have hk : index.toNat < mv.data.length := by omega
    refine ⟨mv.data.get ⟨index.toNat, hk⟩, List.getElem?_eq_getElem hk, ?_⟩
    have hd := deref_natCast mv.data index.toNat hk
    rw [Int.toNat_of_nonneg hidx] at hd
    simp only [Mat_VarGetCell, Mat_VarGetCell_run, hn, bind, Except.bind, if_pos hlt, hd]
    rfl
  · simp only [Mat_VarGetCell, Mat_VarGetCell_run, hn, bind, Except.bind,
      if_neg (not_lt.mpr hge)]
    rfl

/-- Instance of `Mat_VarGetCell_lookup` on the 3 x 4 array with handles
`0..11`, at index 5. -/
theorem Mat_VarGetCell_lookup_witness :
    ((([3, 4] : List Int).length : Int) = 2 ∧
      (((List.range 12).length : Int) = ([3, 4] : List Int).prod) ∧
      ([3, 4] : List Int).prod < 2147483648 ∧ (0 : Int) ≤ 5) ∧
    ((5 < ([3, 4] : List Int).prod →
      ∃ h, (List.range 12)[(5 : Int).toNat]? = some h ∧
        Mat_VarGetCell (some ⟨2, [3, 4], List.range 12⟩) 5 = .ok (Ptr.cell h)) ∧
    (([3, 4] : List Int).prod ≤ 5 →
      Mat_VarGetCell (some ⟨2, [3, 4], List.range 12⟩) 5 = .ok Ptr.null) ∧
    (∀ k : Int, Mat_VarGetCell (none : Option (matvar_t Nat)) k = .ok Ptr.null)) :=
  ⟨⟨by decide, by decide, by decide, by decide⟩,
    Mat_VarGetCell_lookup ⟨2, [3, 4], List.range 12⟩ 5 (by decide) (by decide) (by decide)
      (by decide)⟩

/-! ## Mat_VarGetCellsLinear -/

theorem linear_run_eq {α : Type} (mv : matvar_t α) (start stride edge : Int)
    (hrank : mv.rank ≤ 10) (hedge : 0 ≤ edge) :
    Mat_VarGetCellsLinear (some mv) start stride edge
      = some ((List.range edge.toNat).map
          (fun i : Nat => deref mv.data (wrap ((i : Int) * stride)))) := by
  have hr : ¬ (mv.rank > 10) := by omega
  have hm : (malloc edge : Option (List (Ptr α)))
      = some (List.replicate edge.toNat Ptr.unset) := by
    rw [malloc, if_neg (by omega)]
  simp only [Mat_VarGetCellsLinear, Mat_VarGetCellsLinear_run, if_neg hr, hm]
  congr 1
  apply eq_range_map
  · rw [linearLoop_length, List.length_replicate]
  · intro k hk
    rw [linearLoop_get _ _ _ _ _ _ (by decide) (by simp)]
    have hk2 : 0 ≤ k ∧ k < 0 + edge.toNat := by omega
    rw [if_pos hk2]
    simp

/-- C17 (counterexample): on the 1-element array with handle `10`,
`Mat_VarGetCellsLinear(matvar, 0, INT_MIN, 3)` reads the offsets `0`, `INT_MIN`
and again `0` (`I += stride` wraps), so its third handle is `storage[0]`,
whereas `2*stride = -2^32` is no position of the storage. -/
theorem Mat_VarGetCellsLinear_stride_overflow :
    Mat_VarGetCellsLinear (some ⟨1, [1], [10]⟩) 0 (-2147483648) 3
      = some [Ptr.cell 10, Ptr.wild, Ptr.cell 10] ∧
    (List.range 3).map (fun i : Nat => deref [10] ((i : Int) * (-2147483648)))
      = [Ptr.cell 10, Ptr.wild, Ptr.wild] := by
  constructor <;> decide

/-- C17 (amended): for a descriptor with `rank ≤ 10` and `edge ≥ 0`, the result
of `Mat_VarGetCellsLinear` is the sequence of `edge` reads at the offsets
`i*stride` reduced to `int`, whatever `start` is; two calls that differ only in
`start` return the same sequence; and when every `i*stride`, `i < edge`, fits
in an `int`, the `i`-th handle is the read at `i*stride` itself. -/
theorem Mat_VarGetCellsLinear_start_unused {α : Type} (mv : matvar_t α)
    (stride edge : Int) (hrank : mv.rank ≤ 10) (hedge : 0 ≤ edge) :
    (∀ start : Int, Mat_VarGetCellsLinear (some mv) start stride edge
      = some ((List.range edge.toNat).map
          (fun i : Nat => deref mv.data (wrap ((i : Int) * stride))))) ∧
    (∀ start start2 : Int, Mat_VarGetCellsLinear (some mv) start stride edge
      = Mat_VarGetCellsLinear (some mv) start2 stride edge) ∧
    ((∀ i : Nat, (i : Int) < edge → IsInt ((i : Int) * stride)) →
      ∀ start : Int, Mat_VarGetCellsLinear (some mv) start stride edge
        = some ((List.range edge.toNat).map
            (fun i : Nat => deref mv.data ((i : Int) * stride)))) := by
  refine ⟨fun start => linear_run_eq mv start stride edge hrank hedge, fun _ _ => rfl,
    fun hfit start => ?_⟩
  rw [linear_run_eq mv start stride edge hrank hedge]
  congr 1
  apply List.map_congr_left
  intro i hi
  rw [List.mem_range] at hi
  rw [wrap_eq (hfit i (by omega))]

/-- Instance of `Mat_VarGetCellsLinear_start_unused` on the 3 x 4 array with
handles `0..11`, `stride = 2`, `edge = 3`. -/
theorem Mat_VarGetCellsLinear_start_unused_witness :
    ((2 : Int) ≤ 10 ∧ (0 : Int) ≤ 3) ∧
    ((∀ start : Int, Mat_VarGetCellsLinear (some ⟨2, [3, 4], List.range 12⟩) start 2 3
      = some ((List.range (3 : Int).toNat).map
          (fun i : Nat => deref (List.range 12) (wrap ((i : Int) * 2))))) ∧
    (∀ start start2 : Int, Mat_VarGetCellsLinear (some ⟨2, [3, 4], List.range 12⟩) start 2 3
      = Mat_VarGetCellsLinear (some ⟨2, [3, 4], List.range 12⟩) start2 2 3) ∧
    ((∀ i : Nat, (i : Int) < 3 → IsInt ((i : Int) * 2)) →
      ∀ start : Int, Mat_VarGetCellsLinear (some ⟨2, [3, 4], List.range 12⟩) start 2 3
        = some ((List.range (3 : Int).toNat).map
            (fun i : Nat => deref (List.range 12) ((i : Int) * 2))))) :=
  ⟨⟨by decide, by decide⟩,
    Mat_VarGetCellsLinear_start_unused ⟨2, [3, 4], List.range 12⟩ 2 3 (by decide) (by decide)⟩

/-! ## Failure on null arguments and on rank above 10 -/

/-- C9: for a descriptor with `rank > 10`, `Mat_VarGetCells` and
`Mat_VarGetCellsLinear` return `NULL` whatever `start`, `stride`, `edge` and
the storage are.  The log of the run is empty, so the storage is not read, and
no fault arises even when `start`, `stride`, `edge` are empty, so none of their
entries is read. -/
theorem rank_cap {α : Type} (mv : matvar_t α) (hrank : 10 < mv.rank) :
    (∀ start stride edge : Option (List Int),
      Mat_VarGetCells (some mv) start stride edge = .ok none) ∧
    (∀ start stride edge : Int,
      Mat_VarGetCellsLinear (some mv) start stride edge = none) ∧
    (∀ start stride edge : Option (List Int),
      Mat_VarGetCells_run (some mv) start stride edge = .ok (none, [])) ∧
    (∀ start stride edge : Int,
      Mat_VarGetCellsLinear_run (some mv) start stride edge = (none, [])) := by
  have hrun : ∀ start stride edge : Option (List Int),
      Mat_VarGetCells_run (some mv) start stride edge = .ok (none, []) := by
    intro start stride edge
    cases start <;> cases stride <;> cases edge <;> simp [Mat_VarGetCells_run, hrank]
  have hlin : ∀ start stride edge : Int,
      Mat_VarGetCellsLinear_run (some mv) start stride edge = (none, []) := by
    intro start stride edge
    simp [Mat_VarGetCellsLinear_run, hrank]
  refine ⟨fun a b c => getCells_of_run _ _ _ _ _ _ (hrun a b c), fun a b c => ?_, hrun, hlin⟩
  rw [Mat_VarGetCellsLinear, hlin]

/-- Instance of `rank_cap` at rank 11 with empty `dims` and empty storage. -/
theorem rank_cap_witness :
    (10 : Int) < 11 ∧
    ((∀ start stride edge : Option (List Int),
      Mat_VarGetCells (some (⟨11, [], []⟩ : matvar_t Nat)) start stride edge = .ok none) ∧
    (∀ start stride edge : Int,
      Mat_VarGetCellsLinear (some (⟨11, [], []⟩ : matvar_t Nat)) start stride edge = none) ∧
    (∀ start stride edge : Option (List Int),
      Mat_VarGetCells_run (some (⟨11, [], []⟩ : matvar_t Nat)) start stride edge
        = .ok (none, [])) ∧
    (∀ start stride edge : Int,
      Mat_VarGetCellsLinear_run (some (⟨11, [], []⟩ : matvar_t Nat)) start stride edge
        = (none, []))) :=
  ⟨by decide, rank_cap ⟨11, [], []⟩ (by decide)⟩

/-- C10: each of the three routines returns `NULL` on a null descriptor, and
`Mat_VarGetCells` returns `NULL` as soon as one of `start`, `stride`, `edge` is
null, whatever the other arguments are. -/
theorem null_argument_law {α : Type} :
    (∀ index : Int, Mat_VarGetCell (none : Option (matvar_t α)) index = .ok Ptr.null) ∧
    (∀ start stride edge : Int,
      Mat_VarGetCellsLinear (none : Option (matvar_t α)) start stride edge = none) ∧
    (∀ start stride edge : Option (List Int),
      Mat_VarGetCells (none : Option (matvar_t α)) start stride edge = .ok none) ∧
    (∀ (mv : Option (matvar_t α)) (stride edge : Option (List Int)),
      Mat_VarGetCells mv none stride edge = .ok none) ∧
    (∀ (mv : Option (matvar_t α)) (start edge : Option (List Int)),
      Mat_VarGetCells mv start none edge = .ok none) ∧
    (∀ (mv : Option (matvar_t α)) (start stride : Option (List Int)),
      Mat_VarGetCells mv start stride none = .ok none) := by
  refine ⟨fun _ => rfl, fun _ _ _ => rfl, fun _ _ _ => rfl, ?_, ?_, ?_⟩
  · intro mv stride edge
    cases mv <;> rfl
  · intro mv start edge
    cases mv <;> cases start <;> rfl
  · intro mv start stride
    cases mv <;> cases start <;> cases stride <;> rfl

/-! ## Failure reporting -/

/-- C12 (counterexample): a call of `Mat_VarGetCells` failing on a null
descriptor and a call failing on rank 11 report the same result `NULL`, and so
do the two corresponding calls of `Mat_VarGetCellsLinear`. -/
theorem failure_causes_same_result :
    Mat_VarGetCells (none : Option (matvar_t Nat)) (some [0]) (some [1]) (some [1])
      = Mat_VarGetCells (some ⟨11, [], []⟩) (some [0]) (some [1]) (some [1]) ∧
    Mat_VarGetCellsLinear (none : Option (matvar_t Nat)) 0 1 1
      = Mat_VarGetCellsLinear (some ⟨11, [], []⟩) 0 1 1 := by
  constructor <;> decide

/-- C12 (amended): failures carry no error kind.  Every call of
`Mat_VarGetCells` with a null argument and every call with `rank > 10` report
the one value `NULL`, and likewise for `Mat_VarGetCellsLinear`; the two causes
cannot be told apart from the result. -/
theorem failures_report_null {α : Type} (mv : matvar_t α) (hrank : 10 < mv.rank) :
    (∀ (m : Option (matvar_t α)) (start stride edge start2 stride2 edge2 : Option (List Int)),
      (m = none ∨ start = none ∨ stride = none ∨ edge = none) →
      Mat_VarGetCells m start stride edge = .ok none ∧
      Mat_VarGetCells (some mv) start2 stride2 edge2 = .ok none) ∧
    (∀ start stride edge start2 stride2 edge2 : Int,
      Mat_VarGetCellsLinear (none : Option (matvar_t α)) start stride edge = none ∧
      Mat_VarGetCellsLinear (some mv) start2 stride2 edge2 = none) := by
  have hcap : ∀ a b c : Option (List Int), Mat_VarGetCells (some mv) a b c = .ok none := by
    intro a b c
    apply getCells_of_run _ _ _ _ _ []
    cases a <;> cases b <;> cases c <;> simp [Mat_VarGetCells_run, hrank]
  constructor
  · intro m start stride edge start2 stride2 edge2 hnull
    refine ⟨?_, hcap _ _ _⟩
    rcases hnull with h | h | h | h
    · subst h; rfl
    · subst h; cases m <;> rfl
    · subst h; cases m <;> cases start <;> rfl
    · subst h; cases m <;> cases start <;> cases stride <;> rfl
  · intro start stride edge start2 stride2 edge2
    exact ⟨rfl, by simp [Mat_VarGetCellsLinear, Mat_VarGetCellsLinear_run, hrank]⟩

/-- Instance of `failures_report_null` at rank 11 with empty `dims` and empty
storage. -/
theorem failures_report_null_witness :
    (10 : Int) < 11 ∧
    ((∀ (m : Option (matvar_t Nat))
        (start stride edge start2 stride2 edge2 : Option (List Int)),
      (m = none ∨ start = none ∨ stride = none ∨ edge = none) →
      Mat_VarGetCells m start stride edge = .ok none ∧
      Mat_VarGetCells (some (⟨11, [], []⟩ : matvar_t Nat)) start2 stride2 edge2
        = .ok none) ∧
    (∀ start stride edge start2 stride2 edge2 : Int,
      Mat_VarGetCellsLinear (none : Option (matvar_t Nat)) start stride edge = none ∧
      Mat_VarGetCellsLinear (some (⟨11, [], []⟩ : matvar_t Nat)) start2 stride2 edge2
        = none)) :=
  ⟨by decide, failures_report_null ⟨11, [], []⟩ (by decide)⟩

/-! ## Evaluations of the routines on small arrays -/

/-- C1 (evaluation): on the 3 x 4 array with handles `0..11`, the selection
`start=[1,0]`, `stride=[1,2]`, `edge=[2,2]` makes `Mat_VarGetCells` return the
handles at flat positions `1,2,3,4`, not those at `1,2,7,8` that nested-loop
order requires. -/
theorem Mat_VarGetCells_3x4_strided :
    Mat_VarGetCells (some ⟨2, [3, 4], List.range 12⟩) (some [1, 0]) (some [1, 2])
        (some [2, 2])
      = .ok (some [Ptr.cell 1, Ptr.cell 2, Ptr.cell 3, Ptr.cell 4]) ∧
    Mat_VarGetCells (some ⟨2, [3, 4], List.range 12⟩) (some [1, 0]) (some [1, 2])
        (some [2, 2])
      ≠ .ok (some [Ptr.cell 1, Ptr.cell 2, Ptr.cell 7, Ptr.cell 8]) := by
  constructor
  · decide!
  · intro h
    have h2 : (Except.ok (some [Ptr.cell 1, Ptr.cell 2, Ptr.cell 3, Ptr.cell 4]) :
        Except Fault (Option (List (Ptr Nat))))
        = .ok (some [Ptr.cell 1, Ptr.cell 2, Ptr.cell 7, Ptr.cell 8]) := h
    simp at h2

/-- C2 (evaluation): on the 3-element array with handles `10,20,30`,
`Mat_VarGetCellsLinear(matvar, 1, 1, 1)` returns the handle at position 0,
whereas `storage[start]` is the handle `20` at position 1. -/
theorem Mat_VarGetCellsLinear_ignores_start :
    Mat_VarGetCellsLinear (some ⟨1, [3], [10, 20, 30]⟩) 1 1 1 = some [Ptr.cell 10] ∧
    ([10, 20, 30] : List Nat)[1]? = some 20 := by
  constructor <;> decide!

/-- C4 (evaluation): on the 1 x 2 x 1 x 2 array with handles `0..3`, the full
selection makes `Mat_VarGetCells` read offsets `0,1,4,5`, the last two outside
the storage, whereas `Mat_VarGetCellsLinear(matvar, 0, 1, 4)` returns the
handles `0,1,2,3`. -/
theorem Mat_VarGetCells_full_rank4 :
    Mat_VarGetCells (some ⟨4, [1, 2, 1, 2], List.range 4⟩) (some [0, 0, 0, 0])
        (some [1, 1, 1, 1]) (some [1, 2, 1, 2])
      = .ok (some [Ptr.cell 0, Ptr.cell 1, Ptr.wild, Ptr.wild]) ∧
    Mat_VarGetCellsLinear (some ⟨4, [1, 2, 1, 2], List.range 4⟩) 0 1 4
      = some [Ptr.cell 0, Ptr.cell 1, Ptr.cell 2, Ptr.cell 3] := by
  constructor <;> decide!

/-- C6 (evaluation): on the 2-element array with handles `10,20`,
`Mat_VarGetCell(matvar, 1)` is the handle `20` while the single element of
`Mat_VarGetCellsLinear(matvar, 1, 1, 1)` is the handle `10`. -/
theorem Mat_VarGetCell_vs_linear :
    Mat_VarGetCell (some ⟨1, [2], [10, 20]⟩) 1 = .ok (Ptr.cell 20) ∧
    Mat_VarGetCellsLinear (some ⟨1, [2], [10, 20]⟩) 1 1 1 = some [Ptr.cell 10] := by
  constructor <;> decide!

/-- C7 (evaluation): on the rank-1 array with handles `10,20,30`,
`Mat_VarGetCells` with `start=[1]`, `stride=[1]`, `edge=[1]` returns the handle
`20` while `Mat_VarGetCellsLinear(matvar, 1, 1, 1)` returns the handle `10`. -/
theorem Mat_VarGetCells_rank1_vs_linear :
    Mat_VarGetCells (some ⟨1, [3], [10, 20, 30]⟩) (some [1]) (some [1]) (some [1])
      = .ok (some [Ptr.cell 20]) ∧
    Mat_VarGetCellsLinear (some ⟨1, [3], [10, 20, 30]⟩) 1 1 1 = some [Ptr.cell 10] := by
  constructor <;> decide!

/-- C11 (evaluation): on the 3-element array with handles `10,20,30`,
`Mat_VarGetCell(matvar, -1)` passes the test `index < nmemb` and reads the
storage at offset `-1`, outside of it, instead of returning `NULL`. -/
theorem Mat_VarGetCell_negative_index :
    Mat_VarGetCell (some ⟨1, [3], [10, 20, 30]⟩) (-1) = .ok Ptr.wild ∧
    Mat_VarGetCell (some ⟨1, [3], [10, 20, 30]⟩) (-1) ≠ .ok Ptr.null := by
  constructor <;> decide

/-- C13 (evaluation): on the 3-element array with handles `10,20,30`,
`Mat_VarGetCell(matvar, 1)` returns the second cell `20` and
`Mat_VarGetCell(matvar, 3)` returns `NULL`; with a 1-relative index they would
be the first cell `10` and the third cell `30`. -/
theorem Mat_VarGetCell_zero_relative :
    Mat_VarGetCell (some ⟨1, [3], [10, 20, 30]⟩) 1 = .ok (Ptr.cell 20) ∧
    Mat_VarGetCell (some ⟨1, [3], [10, 20, 30]⟩) 3 = .ok Ptr.null ∧
    ([10, 20, 30] : List Nat)[1 - 1]? = some 10 ∧
    ([10, 20, 30] : List Nat)[3 - 1]? = some 30 := by
  refine ⟨?_, ?_, ?_, ?_⟩ <;> decide

/-- C14 (evaluation): on the 3 x 2 array with handles `0..5`, the selection
`start=[0,0]`, `stride=[2,1]`, `edge=[2,2]` lies within `dims` in every
dimension, yet `Mat_VarGetCells` reads the offsets `0,2,4,6`, the last one
outside the storage. -/
theorem Mat_VarGetCells_inbounds_reads_outside :
    ((0 : Int) + 2 * (2 - 1) < 3 ∧ (0 : Int) + 1 * (2 - 1) < 2) ∧
    Mat_VarGetCells (some ⟨2, [3, 2], List.range 6⟩) (some [0, 0]) (some [2, 1])
        (some [2, 2])
      = .ok (some [Ptr.cell 0, Ptr.cell 2, Ptr.cell 4, Ptr.wild]) := by
  constructor
  · decide
  · decide!

/-- C15 (evaluation): on the 2 x 1 x 1 x 2 array with handles `0..3`, the
single-element selection at `start=[0,0,0,1]` returns the handle at flat
offset 1, whereas the column-major offset of that coordinate is
`1 * (2*1*1) = 2`. -/
theorem Mat_VarGetCells_start_rank4 :
    Mat_VarGetCells (some ⟨4, [2, 1, 1, 2], List.range 4⟩) (some [0, 0, 0, 1])
        (some [1, 1, 1, 1]) (some [1, 1, 1, 1])
      = .ok (some [Ptr.cell 1]) ∧
    (0 * 1 + 0 * 2 + 0 * (2 * 1) + 1 * (2 * 1 * 1) : Int) = 2 := by
  constructor
  · decide!
  · decide

/-- C20 (evaluation): for `dims=[1,2,1]` the set-up part leaves
`dimp = [1, 2, 4]`: `dimp[2]` is `dims[1]*dims[2]*dims[1] = 4`, whereas
`product(dims[0..2]) = 2`. -/
theorem setup_dimp_rank3 :
    (setup [1, 2, 1] [0, 0, 0] [1, 1, 1] [1, 2, 1] 3).map
        (fun s => (s.dimp 0, s.dimp 1, s.dimp 2))
      = .ok (1, 2, 4) ∧
    ([1, 2, 1] : List Int).prod = 2 := by
  constructor
  · decide!
  · decide

/-! ## Cardinality of the result of Mat_VarGetCells -/

/-- C16 (counterexample): on the 1 x 1 array with handle `7`, the selection
`start=[0,0]`, `stride=[0,0]`, `edge=[65536,65536]` returns no handle at all,
because `N = edge[0]*edge[1]` is `2^32` reduced to `int`, that is 0; the
handle number 0 of the `edge[0]*edge[1]` promised ones is missing. -/
theorem Mat_VarGetCells_rank2_count_overflow :
    ((0 : Int) ≤ 0 ∧ (0 : Int) ≤ 65536 ∧ (0 : Int) < 65536 * 65536) ∧
    Mat_VarGetCells (some (⟨2, [1, 1], [7]⟩ : matvar_t Nat)) (some [0, 0])
        (some [0, 0]) (some [65536, 65536])
      = .ok (some []) ∧
    deref ([7] : List Nat) (0 + 0 * 1 + 0 * 0) = Ptr.cell 7 := by
  refine ⟨⟨by decide, by decide, by decide⟩, by decide!, by decide⟩

/-- C16 (amended): for a descriptor of rank 2 and a selection with `start[0]`
an `int`, `start[1] ≥ 0`, `edge[0] ≥ 0`, `edge[1] ≥ 0` and `edge[0]*edge[1]` at
most `INT_MAX`, the carry loop runs zero times and `Mat_VarGetCells` returns
`edge[0]*edge[1]` handles, the `k`-th being the read at
`start[0] + start[1]*dims[0] + k*stride[0]` reduced to `int`, which is that
offset itself whenever it fits in an `int`; `stride[1]` plays no part. -/
theorem Mat_VarGetCells_rank2 {α : Type} (data : List α)
    (d0 d1 a0 a1 s0 s1 e0 e1 : Int) (ha0 : IsInt a0) (ha1 : 0 ≤ a1) (he0 : 0 ≤ e0)
    (he1 : 0 ≤ e1) (hfit : e0 * e1 < 2147483648) :
    Mat_VarGetCells (some ⟨2, [d0, d1], data⟩) (some [a0, a1]) (some [s0, s1])
        (some [e0, e1])
      = .ok (some ((List.range (e0 * e1).toNat).map
          (fun k : Nat => deref data (wrap (a0 + a1 * d0 + (k : Int) * s0))))) ∧
    ((∀ k : Nat, (k : Int) < e0 * e1 → IsInt (a0 + a1 * d0 + (k : Int) * s0)) →
      Mat_VarGetCells (some ⟨2, [d0, d1], data⟩) (some [a0, a1]) (some [s0, s1])
          (some [e0, e1])
        = .ok (some ((List.range (e0 * e1).toNat).map
            (fun k : Nat => deref data (a0 + a1 * d0 + (k : Int) * s0))))) ∧
    (∀ (inc dimp : Nat → Int) (adj : Int) (cnt : Nat → Int) (I : Int),
      carryLoop [e0, e1] inc dimp adj (wrap ((2 : Int) - 1) - 1).toNat 1 cnt I
        = .ok (cnt, I)) := by
  have hnc : (wrap ((2 : Int) - 1) - 1).toNat = 0 := by decide
  have hmain : Mat_VarGetCells (some ⟨2, [d0, d1], data⟩) (some [a0, a1]) (some [s0, s1])
      (some [e0, e1])
      = .ok (some ((List.range (e0 * e1).toNat).map
          (fun k : Nat => deref data (wrap (a0 + a1 * d0 + (k : Int) * s0))))) := by
    obtain ⟨s, hs, ⟨hss, hse, -, -⟩, hN, hdimp0, -, -, -, hI⟩ := setup_spec [d0, d1]
      [a0, a1] [s0, s1] [e0, e1] 2 (by decide) (by simp) (by simp) (by simp) (by simp)
    simp only [List.getD_cons_zero] at hss hse hdimp0
    have hpe : ([e0, e1] : List Int).prod = e1 * e0 := by simp [mul_comm]
    have hN2 : s.N = e1 * e0 := by
      rw [← hpe]
      apply hN
      rw [hpe]
      exact ⟨by nlinarith, by rw [mul_comm]; exact hfit⟩
    have hI2 : s.I = wrap (a0 + a1 * d0) := by
      rw [hI (by simpa using ha0)]
      simp only [List.length_cons, List.length_nil]
      rw [Finset.sum_eq_sum_Ico_succ_bot (by decide : 1 < 0 + 1 + 1)]
      simp only [Finset.Ico_self, Finset.sum_empty, add_zero, hdimp0]
      simp only [List.getD_cons_succ, List.getD_cons_zero]
      by_cases h : 0 < a1
      · rw [if_pos h]
      · have : a1 = 0 := by omega
        rw [if_neg h, this]; ring_nf
    have hN0 : 0 ≤ s.N := by rw [hN2]; exact mul_nonneg he1 he0
    have hm : (malloc s.N : Option (List (Ptr α)))
        = some (List.replicate s.N.toNat Ptr.unset) := by
      rw [malloc, if_neg (by omega)]
    have hcomm : e0 * e1 = s.N := by rw [hN2]; ring
    have hrun := getCells_run_eq ⟨2, [d0, d1], data⟩ [a0, a1] [s0, s1] [e0, e1]
      (show (2 : Int) ≤ 10 by decide) s hs
    rw [hm] at hrun
    simp only [hnc] at hrun
    rw [hcomm]
    by_cases hz : s.N = 0
    · rw [outerLoop_exit _ _ _ _ _ _ _ _ _ _ _ _ _ _ (by omega)] at hrun
      rw [getCells_of_run _ _ _ _ _ _ hrun, hz]
      rfl
    · have hpos : 0 < e0 := by
        rcases eq_or_lt_of_le he0 with h | h
        · exact absurd (by rw [hN2, ← h, mul_zero]) hz
        · exact h
      obtain ⟨log, hr, -, -⟩ := outerLoop_progression data 0 [e0, e1] s.inc s.dimp
        s.stride0 s.edge0
        (wrap (wrap (s.dims0 - wrap (s.edge0 * s.stride0)) - s.start0)) s.N e1 s.I
        (fun _ _ => True) (by rw [hse]; exact hpos) (by rw [hN2, hse])
        (by rw [← hcomm]; exact hfit) (by rw [hI2]; exact wrap_wrap _)
        (fun q cnt _ _ _ => ⟨cnt, rfl, trivial⟩) trivial
      rw [hr] at hrun
      rw [getCells_of_run _ _ _ _ _ _ hrun]
      congr 2
      apply List.map_congr_left
      intro k _
      rw [hI2, hss, wrap_add_left]
  refine ⟨hmain, fun hoff => ?_, fun _ _ _ _ _ => by rw [hnc]; rfl⟩
  rw [hmain]
  congr 2
  apply List.map_congr_left
  intro k hk
  rw [List.mem_range] at hk
  rw [wrap_eq (hoff k (by
    have h0 : 0 ≤ e0 * e1 := mul_nonneg he0 he1
    omega))]

/-- Instance of `Mat_VarGetCells_rank2` on the 3 x 4 array with handles
`0..11` and the selection `start=[1,0]`, `stride=[1,2]`, `edge=[2,2]`. -/
theorem Mat_VarGetCells_rank2_witness :
    (IsInt 1 ∧ (0 : Int) ≤ 0 ∧ (0 : Int) ≤ 2 ∧ (0 : Int) ≤ 2 ∧
      (2 : Int) * 2 < 2147483648) ∧
    (Mat_VarGetCells (some ⟨2, [3, 4], List.range 12⟩) (some [1, 0]) (some [1, 2])
        (some [2, 2])
      = .ok (some ((List.range ((2 : Int) * 2).toNat).map
          (fun k : Nat => deref (List.range 12) (wrap (1 + 0 * 3 + (k : Int) * 1))))) ∧
    ((∀ k : Nat, (k : Int) < 2 * 2 → IsInt (1 + 0 * 3 + (k : Int) * 1)) →
      Mat_VarGetCells (some ⟨2, [3, 4], List.range 12⟩) (some [1, 0]) (some [1, 2])
          (some [2, 2])
        = .ok (some ((List.range ((2 : Int) * 2).toNat).map
            (fun k : Nat => deref (List.range 12) (1 + 0 * 3 + (k : Int) * 1))))) ∧
    (∀ (inc dimp : Nat → Int) (adj : Int) (cnt : Nat → Int) (I : Int),
      carryLoop [2, 2] inc dimp adj (wrap ((2 : Int) - 1) - 1).toNat 1 cnt I
        = .ok (cnt, I))) :=
  ⟨⟨by decide, by decide, by decide, by decide, by decide⟩,
    Mat_VarGetCells_rank2 (List.range 12) 3 4 1 0 1 2 2 2 (by decide) (by decide)
      (by decide) (by decide) (by decide)⟩

/-! ## Full selection up to rank 3 -/

/-- C18 (counterexample): on the 65536 x 32768 array, whose storage has
`product(dims) = 2^31` handles, the full selection makes `N` equal to `2^31`
reduced to `int`, a negative number: the allocation fails and
`Mat_VarGetCells` returns `NULL`, not the storage. -/
theorem Mat_VarGetCells_full_count_overflow :
    ((1 : Int) ≤ 2 ∧ (2 : Int) ≤ 3 ∧ (∀ d ∈ ([65536, 32768] : List Int), 1 ≤ d) ∧
      ((List.replicate 2147483648 (0 : Nat)).length : Int)
        = ([65536, 32768] : List Int).prod) ∧
    Mat_VarGetCells (some ⟨2, [65536, 32768], List.replicate 2147483648 (0 : Nat)⟩)
        (some (List.replicate ([65536, 32768] : List Int).length 0))
        (some (List.replicate ([65536, 32768] : List Int).length 1))
        (some [65536, 32768])
      = .ok none := by
  refine ⟨⟨by decide, by decide, by decide, ?_⟩, by decide!⟩
  rw [List.length_replicate]
  decide

/-- C18 (amended): for a descriptor with `1 ≤ rank ≤ 3`, all `dims ≥ 1` and
`product(dims)` handles, `product(dims)` at most `INT_MAX`, the full selection
(`start` all 0, `stride` all 1, `edge = dims`) makes `Mat_VarGetCells` return
the storage in ascending flat order; the traversal makes
`product(dims)/dims[0]` innermost runs and at the start of each of them the
offset `I` equals the number `i` of handles already emitted. -/
theorem Mat_VarGetCells_full_upto_rank3 {α : Type} (mv : matvar_t α)
    (hrank1 : 1 ≤ mv.rank) (hrank3 : mv.rank ≤ 3)
    (hdims : (mv.dims.length : Int) = mv.rank)
    (hpos : ∀ d ∈ mv.dims, 1 ≤ d)
    (hdata : (mv.data.length : Int) = mv.dims.prod)
    (hfit : mv.dims.prod < 2147483648) :
    Mat_VarGetCells (some mv) (some (List.replicate mv.dims.length 0))
        (some (List.replicate mv.dims.length 1)) (some mv.dims)
      = .ok (some (mv.data.map Ptr.cell)) ∧
    ∃ log, Mat_VarGetCells_run (some mv) (some (List.replicate mv.dims.length 0))
        (some (List.replicate mv.dims.length 1)) (some mv.dims)
        = .ok (some (mv.data.map Ptr.cell), log) ∧
      (runStarts log).length = mv.dims.tail.prod.toNat ∧
      ∀ p ∈ runStarts log, p.2 = p.1 := by
  obtain ⟨s, hs, ⟨hss, hse, hsd, hsa⟩, hN, -, hdimp, -, hinc, hI⟩ := setup_spec mv.dims
    (List.replicate mv.dims.length 0) (List.replicate mv.dims.length 1) mv.dims mv.rank
    (by omega) hdims (by simpa using hdims) (by simpa using hdims) hdims
  have hlen0 : 0 < mv.dims.length := by omega
  have hd0 : 1 ≤ mv.dims.getD 0 0 := hpos _ (getD_mem _ _ hlen0)
  have hprod1 : 1 ≤ mv.dims.prod := one_le_prod _ hpos
  have htail1 : 1 ≤ mv.dims.tail.prod :=
    one_le_prod _ (fun d hd => hpos d (List.mem_of_mem_tail hd))
  have hsplit : mv.dims.prod = mv.dims.tail.prod * mv.dims.getD 0 0 :=
    prod_eq_head_mul_tail _ hlen0
  have hd0fit : mv.dims.getD 0 0 < 2147483648 := by nlinarith
  have hNp : s.N = mv.dims.prod := hN ⟨by omega, hfit⟩
  rw [getD_replicate_one _ _ hlen0] at hss
  rw [getD_replicate_zero] at hsa hI
  have hI0 : s.I = 0 := by
    rw [hI (by decide)]
    simp only [getD_replicate_zero, lt_self_iff_false, if_false, Finset.sum_const_zero,
      add_zero]
    decide
  have hadj : wrap (wrap (s.dims0 - wrap (s.edge0 * s.stride0)) - s.start0) = 0 := by
    rw [hsd, hse, hss, hsa, mul_one, wrap_eq ⟨by omega, hd0fit⟩, sub_self]
    decide
  have hNM : s.N = mv.dims.tail.prod * s.edge0 := by rw [hNp, hse]; exact hsplit
  have hrun := getCells_run_eq mv (List.replicate mv.dims.length 0)
    (List.replicate mv.dims.length 1) mv.dims (by omega) s hs
  have hm : (malloc s.N : Option (List (Ptr α)))
      = some (List.replicate s.N.toNat Ptr.unset) := by
    rw [malloc, if_neg (by omega)]
  rw [hm] at hrun
  simp only [] at hrun
  obtain ⟨log, hr, hcount, hlog⟩ := outerLoop_progression mv.data
    (wrap (mv.rank - 1) - 1).toNat mv.dims s.inc s.dimp s.stride0 s.edge0
    (wrap (wrap (s.dims0 - wrap (s.edge0 * s.stride0)) - s.start0)) s.N
    mv.dims.tail.prod s.I
    (fun q cnt => mv.rank = 3 → cnt 1 = q % mv.dims.getD 1 0)
    (by rw [hse]; omega) hNM (by omega) (by rw [hI0]; decide)
    (by
      intro q cnt hq hqM hInv
      have hqN : (q + 1) * mv.dims.getD 0 0 ≤ mv.dims.prod := by
        rw [hsplit]; exact mul_le_mul_of_nonneg_right (by omega) (by omega)
      have hq0 : 0 ≤ (q + 1) * mv.dims.getD 0 0 := mul_nonneg (by omega) (by omega)
      have e2 : wrap (s.I + (q + 1) * s.edge0 * s.stride0) = (q + 1) * mv.dims.getD 0 0 := by
        rw [hI0, hse, hss, zero_add, mul_one]
        exact wrap_eq ⟨by omega, by omega⟩
      rw [hadj, e2, carry_count mv.rank (by omega) (by omega)]
      by_cases h3 : mv.rank = 3
      · have hcnt : (mv.rank - 2).toNat = 1 := by omega
        have hl1 : 1 < mv.dims.length := by omega
        have hl3 : mv.dims.length = 3 := by omega
        have hd1 : 1 ≤ mv.dims.getD 1 0 := hpos _ (getD_mem _ _ hl1)
        have hd2 : 1 ≤ mv.dims.getD 2 0 := hpos _ (getD_mem _ _ (by omega))
        have hp3 : mv.dims.prod
            = mv.dims.getD 0 0 * mv.dims.getD 1 0 * mv.dims.getD 2 0 := by
          rw [← prod_range_getD, hl3]
          simp [Finset.prod_range_succ]
        have h01 : 1 ≤ mv.dims.getD 0 0 * mv.dims.getD 1 0 := by nlinarith
        have h01fit : mv.dims.getD 0 0 * mv.dims.getD 1 0 < 2147483648 := by nlinarith
        have hd1fit : mv.dims.getD 1 0 < 2147483648 := by nlinarith
        rw [hcnt]
        obtain ⟨cnt2, h1, h2⟩ := carryLoop_full_rank3 mv.dims s.inc s.dimp
          (mv.dims.getD 0 0) (mv.dims.getD 1 0) ((q + 1) * mv.dims.getD 0 0) hd0 hd1
          hd1fit hl1 rfl
          (by
            rw [hdimp 1 (le_refl _) hl1]
            have hsp : shiftProd mv.dims 1 = mv.dims.getD 1 0 := by simp [shiftProd]
            rw [hsp, Nat.sub_self]
            exact wrap_eq ⟨by omega, h01fit⟩)
          (by
            rw [hinc 1 (le_refl _) hl1, getD_replicate_one _ _ hl1, sub_self, zero_mul]
            decide)
          q hq rfl (by omega) cnt (hInv h3)
        exact ⟨cnt2, h1, fun _ => h2⟩
      · have hcnt : (mv.rank - 2).toNat = 0 := by omega
        rw [hcnt]
        exact ⟨cnt, rfl, fun h => absurd h h3⟩)
    (by intro _; simp)
  rw [hr] at hrun
  have hNlen : s.N.toNat = mv.data.length := by
    rw [hNp, ← hdata, Int.toNat_natCast]
  have hres : (List.range s.N.toNat).map
      (fun k : Nat => deref mv.data (wrap (s.I + (k : Int) * s.stride0)))
      = mv.data.map Ptr.cell := by
    symm
    apply eq_range_map
    · rw [List.length_map, hNlen]
    · intro k hk
      have hk2 : k < mv.data.length := by omega
      have e : wrap (s.I + (k : Int) * s.stride0) = (k : Int) := by
        rw [hI0, hss, zero_add, mul_one]
        exact wrap_eq ⟨by omega, by omega⟩
      rw [e, deref_natCast _ _ hk2]
      simp [List.getElem?_eq_getElem hk2]
  rw [hres] at hrun
  refine ⟨getCells_of_run _ _ _ _ _ _ hrun, log, hrun, hcount, ?_⟩
  intro p hp
  obtain ⟨⟨hp0, hpN⟩, hp1⟩ := hlog p hp
  rw [hp1, hI0, hss, zero_add, mul_one]
  exact wrap_eq ⟨by omega, by omega⟩

/-- Instance of `Mat_VarGetCells_full_upto_rank3` on the 2 x 3 x 2 array with
handles `0..11`. -/
theorem Mat_VarGetCells_full_upto_rank3_witness :
    ((1 : Int) ≤ 3 ∧ (3 : Int) ≤ 3 ∧ (∀ d ∈ ([2, 3, 2] : List Int), 1 ≤ d) ∧
      (((List.range 12).length : Int) = ([2, 3, 2] : List Int).prod) ∧
      ([2, 3, 2] : List Int).prod < 2147483648) ∧
    (Mat_VarGetCells (some ⟨3, [2, 3, 2], List.range 12⟩)
        (some (List.replicate ([2, 3, 2] : List Int).length 0))
        (some (List.replicate ([2, 3, 2] : List Int).length 1)) (some [2, 3, 2])
      = .ok (some ((List.range 12).map Ptr.cell)) ∧
    ∃ log, Mat_VarGetCells_run (some ⟨3, [2, 3, 2], List.range 12⟩)
        (some (List.replicate ([2, 3, 2] : List Int).length 0))
        (some (List.replicate ([2, 3, 2] : List Int).length 1)) (some [2, 3, 2])
        = .ok (some ((List.range 12).map Ptr.cell), log) ∧
      (runStarts log).length = ([2, 3, 2] : List Int).tail.prod.toNat ∧
      ∀ p ∈ runStarts log, p.2 = p.1) :=
  ⟨⟨by decide, by decide, by decide, by decide, by decide⟩,
    Mat_VarGetCells_full_upto_rank3 ⟨3, [2, 3, 2], List.range 12⟩ (by decide) (by decide)
      (by decide) (by decide) (by decide) (by decide)⟩

/-! ## Divisors of the carry loop -/

/-- Evaluation with a negative `edge[0]`: on a 1 x 1 array with `edge =
[-2147483647, -2147483647]` the `int` product `N` is 1, the innermost run
copies nothing, `i += edge[0]` goes from 0 to -2147483647 and then wraps to 2,
which ends the traversal: the call returns one slot that was never written. -/
theorem Mat_VarGetCells_negative_edge_returns :
    Mat_VarGetCells (some ⟨2, [1, 1], [7]⟩) (some [0, 0]) (some [1, 1])
        (some [-2147483647, -2147483647])
      = .ok (some [Ptr.unset]) := by
  decide!

end Matio
